import Mathlib

/-!
Shallow embedding of the core of the `music-recommender` repository
(`src/music_recommender/recommender.py`, `llm_enhancer.py`,
`lyrics_analyzer.py`) and proofs about the spec's claims.

Python strings are modelled as `String`/`List Char`; Python dicts arising
from JSON are modelled as insertion-ordered association lists
`List (String × Json)`; Python floats are modelled as `ℚ` (at every input
appearing in the theorems below the Python float computations are exact,
so the rational model agrees with the source); fallible LLM transport is
modelled by an explicit outcome type.
-/

/-! ## Python character and string primitives -/

/-- Whitespace recognised by Python's `str.strip()` and the regex class
`\s` (ASCII range; the track titles and replies in this development are
ASCII). -/
def isPyWS (c : Char) : Bool :=
  c == ' ' || c == '\t' || c == '\n' || c == '\r' || c == '\x0b' || c == '\x0c'

/-- Characters stripped by `str.strip(' -')` in `_clean_track_title`. -/
def isSpaceHyphen (c : Char) : Bool :=
  c == ' ' || c == '-'

/-- Strip characters satisfying `p` from both ends of a character list,
the semantics of Python's `str.strip`. -/
def stripBothEnds (p : Char → Bool) (l : List Char) : List Char :=
  ((l.dropWhile p).reverse.dropWhile p).reverse

/-- Python `str.strip()` (no arguments): strip whitespace from both ends. -/
def pyStrip (s : String) : String :=
  ⟨stripBothEnds isPyWS s.data⟩

/-- Python `str.lower()` on the ASCII range. -/
def pyLower (s : String) : String :=
  ⟨s.data.map Char.toLower⟩

/-- Does `p` occur as a literal prefix of `l`? -/
def startsWithChars : List Char → List Char → Bool
  | [], _ => true
  | _ :: _, [] => false
  | p :: ps, c :: cs => p == c && startsWithChars ps cs

/-- Does `p` occur as a literal trailing segment of `l`? -/
def endsWithChars (p l : List Char) : Bool :=
  startsWithChars p.reverse l.reverse

/-! ## JSON values and `json.loads`

`Json` models the values produced by Python's `json.loads`: objects are
insertion-ordered association lists with unique keys (duplicate keys in
the input text keep their first position and last value, as in CPython).
The parser below covers the JSON fragment exercised in this development:
`null`, booleans, integer numbers, strings with the single-character
escapes, arrays and objects.  (Fractional/exponent numbers, `\u` escapes
and the non-standard `NaN`/`Infinity` extensions of CPython are not
needed by any theorem below and are rejected.) -/

inductive Json where
  | null : Json
  | bool (b : Bool) : Json
  | num (n : Int) : Json
  | str (s : String) : Json
  | arr (elems : List Json) : Json
  | obj (fields : List (String × Json)) : Json

/-- `d[k] = v` on a Python dict modelled as an ordered association list:
an existing key keeps its position and receives the new value, a new key
is appended. -/
def pyDictInsert (d : List (String × Json)) (k : String) (v : Json) :
    List (String × Json) :=
  if d.any (fun kv => kv.1 == k) then
    d.map (fun kv => if kv.1 == k then (k, v) else kv)
  else
    d ++ [(k, v)]

/-- `d.update(u)` on Python dicts: every pair of `u` is assigned into `d`
in order. -/
def pyDictUpdate (d u : List (String × Json)) : List (String × Json) :=
  u.foldl (fun acc kv => pyDictInsert acc kv.1 kv.2) d

/-- `d.get(k)` / `d[k]`: first (and, for dicts, only) binding of `k`. -/
def jLookup (fs : List (String × Json)) (k : String) : Option Json :=
  match fs with
  | [] => none
  | (k', v) :: rest => if k' == k then some v else jLookup rest k

/-- Whitespace skipped between JSON tokens by `json.loads`. -/
def isJsonWS (c : Char) : Bool :=
  c == ' ' || c == '\t' || c == '\n' || c == '\r'

/-- Parse the body of a JSON string literal (the opening quote already
consumed); returns the decoded characters and the remaining input. -/
def parseStrBody : List Char → Option (List Char × List Char)
  | [] => none
  | '"' :: rest => some ([], rest)
  | '\\' :: e :: rest =>
    (match (match e with
            | '"' => some '"'
            | '\\' => some '\\'
            | '/' => some '/'
            | 'b' => some '\x08'
            | 'f' => some '\x0c'
            | 'n' => some '\n'
            | 'r' => some '\r'
            | 't' => some '\t'
            | _ => (none : Option Char)) with
     | none => none
     | some c =>
       match parseStrBody rest with
       | none => none
       | some (cs, r) => some (c :: cs, r))
  | c :: rest =>
    if c.toNat < 32 then none
    else
      match parseStrBody rest with
      | none => none
      | some (cs, r) => some (c :: cs, r)

/-- Digit-string to natural number value. -/
def digitsToNat (l : List Char) : Nat :=
  l.foldl (fun n c => n * 10 + (c.toNat - 48)) 0

/-- Parse a JSON integer literal at the head of the input. -/
def parseNum (l : List Char) : Option (Json × List Char) :=
  let (neg, l') := match l with
    | '-' :: rest => (true, rest)
    | _ => (false, l)
  let digits := l'.takeWhile Char.isDigit
  let rest := l'.dropWhile Char.isDigit
  if digits.isEmpty then none
  else if digits.length > 1 && digits.headD '0' == '0' then none
  else match rest with
    | '.' :: _ => none
    | 'e' :: _ => none
    | 'E' :: _ => none
    | _ =>
      let n : Int := Int.ofNat (digitsToNat digits)
      some (.num (if neg then -n else n), rest)

/-- Mode of the single-pass JSON parser: a value, the remaining items of
an array, or the remaining fields of an object. -/
inductive ParseMode where
  | val
  | arrCont (acc : List Json)
  | objCont (acc : List (String × Json))

/-- Result of one parser invocation. -/
inductive ParseOut where
  | val (j : Json) (rest : List Char)
  | arrDone (elems : List Json) (rest : List Char)
  | objDone (fields : List (String × Json)) (rest : List Char)

/-- Fuelled recursive-descent JSON parser (structural recursion on the
fuel so that it reduces inside the kernel). -/
def jsonRun : Nat → ParseMode → List Char → Option ParseOut
  | 0, _, _ => none
  | fuel + 1, .val, l =>
    match l.dropWhile isJsonWS with
    | [] => none
    | 'n' :: 'u' :: 'l' :: 'l' :: rest => some (.val .null rest)
    | 't' :: 'r' :: 'u' :: 'e' :: rest => some (.val (.bool true) rest)
    | 'f' :: 'a' :: 'l' :: 's' :: 'e' :: rest => some (.val (.bool false) rest)
    | '"' :: rest =>
      match parseStrBody rest with
      | some (cs, rest') => some (.val (.str ⟨cs⟩) rest')
      | none => none
    | '[' :: rest =>
      (match rest.dropWhile isJsonWS with
       | ']' :: rest' => some (.val (.arr []) rest')
       | inner =>
         match jsonRun fuel (.arrCont []) inner with
         | some (.arrDone elems rest') => some (.val (.arr elems) rest')
         | _ => none)
    | '\x7b' :: rest =>
      (match rest.dropWhile isJsonWS with
       | '\x7d' :: rest' => some (.val (.obj []) rest')
       | inner =>
         match jsonRun fuel (.objCont []) inner with
         | some (.objDone fields rest') => some (.val (.obj fields) rest')
         | _ => none)
    | c :: rest =>
      if c == '-' || c.isDigit then
        match parseNum (c :: rest) with
        | some (j, rest') => some (.val j rest')
        | none => none
      else none
  | fuel + 1, .arrCont acc, l =>
    (match jsonRun fuel .val l with
     | some (.val v rest) =>
       (match rest.dropWhile isJsonWS with
        | ',' :: rest' => jsonRun fuel (.arrCont (acc ++ [v])) rest'
        | ']' :: rest' => some (.arrDone (acc ++ [v]) rest')
        | _ => none)
     | _ => none)
  | fuel + 1, .objCont acc, l =>
    (match l.dropWhile isJsonWS with
     | '"' :: rest =>
       (match parseStrBody rest with
        | some (kcs, rest') =>
          (match rest'.dropWhile isJsonWS with
           | ':' :: rest2 =>
             (match jsonRun fuel .val rest2 with
              | some (.val v rest3) =>
                (match rest3.dropWhile isJsonWS with
                 | ',' :: rest4 => jsonRun fuel (.objCont (pyDictInsert acc ⟨kcs⟩ v)) rest4
                 | '\x7d' :: rest4 => some (.objDone (pyDictInsert acc ⟨kcs⟩ v) rest4)
                 | _ => none)
              | _ => none)
           | _ => none)
        | none => none)
     | _ => none)

/-- `json.loads`: parse one JSON document, allowing surrounding
whitespace and rejecting trailing data.  `none` models
`json.JSONDecodeError`. -/
def jsonParse (s : String) : Option Json :=
  match jsonRun (2 * s.data.length + 2) .val s.data with
  | some (.val j rest) => if (rest.dropWhile isJsonWS).isEmpty then some j else none
  | _ => none

example : jsonParse "5" = some (.num 5) := rfl
example : jsonParse " [1, -2] " = some (.arr [.num 1, .num (-2)]) := rfl
example : jsonParse "\x7b\"a\": [true, null], \"b\": \"x\"\x7d" =
    some (.obj [("a", .arr [.bool true, .null]), ("b", .str "x")]) := rfl
example : jsonParse "not json" = none := rfl
example : jsonParse "" = none := rfl
example : jsonParse "\x7b\"a\": 1\x7d extra" = none := rfl

/-! ## Similarity Engine (`recommender.py`, `_calculate_jaccard_similarity`
and `calculate_song_content_similarity`)

Scores are modelled in `ℚ`; the default weights are `3/10`, `4/10`,
`3/10`.  At every input appearing in the theorems below the Python float
computation is exact (in CPython `0.3 + 0.4 + 0.3 == 1.0` holds exactly),
so the rational model agrees with the source. -/

/-- Jaccard similarity of two sets, `0` when both are empty.  The
`isinstance` branch of the source converts list inputs with `set(...)`;
here the callers perform that conversion, as
`calculate_song_content_similarity` itself does with `set(...)`. -/
def _calculate_jaccard_similarity (set1 set2 : Finset String) : ℚ :=
  let intersection := (set1 ∩ set2).card
  let union := (set1 ∪ set2).card
  if union = 0 then 0 else (intersection : ℚ) / (union : ℚ)

/-- The two keys of a `lyrical_insights` dict read by the similarity
computation; `none` models an absent key (`dict.get` default). -/
structure LyricalInsightsFacets where
  themes : Option (List String)
  keywords : Option (List String)

/-- The keys of a song-details dict read by the similarity computation;
`none` models an absent key. -/
structure SongContentDetails where
  artist_genres : Option (List String)
  lyrical_insights : Option LyricalInsightsFacets

/-- Optional weights dict passed to the similarity computation. -/
structure SimWeights where
  genre : Option ℚ
  theme : Option ℚ
  keyword : Option ℚ

/-- `calculate_song_content_similarity(song_a_details, song_b_details,
weights=None)`: weighted sum of per-facet Jaccard similarities.  Missing
keys fall back to `{}` / `[]` exactly as the source's `dict.get` calls
do.  The function is total: it returns a score for every pair of
records. -/
def calculate_song_content_similarity
    (song_a_details song_b_details : SongContentDetails)
    (weights : Option SimWeights) : ℚ :=
  let w := weights.getD ⟨some (3/10), some (4/10), some (3/10)⟩
  let song_a_insights := song_a_details.lyrical_insights.getD ⟨none, none⟩
  let song_b_insights := song_b_details.lyrical_insights.getD ⟨none, none⟩
  let genres_a := (song_a_details.artist_genres.getD []).toFinset
  let genres_b := (song_b_details.artist_genres.getD []).toFinset
  let genre_similarity := _calculate_jaccard_similarity genres_a genres_b
  let themes_a := (song_a_insights.themes.getD []).toFinset
  let themes_b := (song_b_insights.themes.getD []).toFinset
  let theme_similarity := _calculate_jaccard_similarity themes_a themes_b
  let keywords_a := (song_a_insights.keywords.getD []).toFinset
  let keywords_b := (song_b_insights.keywords.getD []).toFinset
  let keyword_similarity := _calculate_jaccard_similarity keywords_a keywords_b
  genre_similarity * (w.genre.getD (3/10)) +
    theme_similarity * (w.theme.getD (4/10)) +
    keyword_similarity * (w.keyword.getD (3/10))

/-- The genre facet of a record, as the set the source builds. -/
def genreFacet (s : SongContentDetails) : Finset String :=
  (s.artist_genres.getD []).toFinset

/-- The theme facet of a record. -/
def themeFacet (s : SongContentDetails) : Finset String :=
  ((s.lyrical_insights.getD ⟨none, none⟩).themes.getD []).toFinset

/-- The keyword facet of a record. -/
def keywordFacet (s : SongContentDetails) : Finset String :=
  ((s.lyrical_insights.getD ⟨none, none⟩).keywords.getD []).toFinset

/-- Explicitly empty insights record: both facet keys present and `[]`. -/
def emptyInsightsFacets : LyricalInsightsFacets := ⟨some [], some []⟩

theorem calculate_song_content_similarity_facets
    (a b : SongContentDetails) :
    calculate_song_content_similarity a b none =
      _calculate_jaccard_similarity (genreFacet a) (genreFacet b) * (3/10) +
      _calculate_jaccard_similarity (themeFacet a) (themeFacet b) * (4/10) +
      _calculate_jaccard_similarity (keywordFacet a) (keywordFacet b) * (3/10) := rfl

/-! ## Text Normalizer (`recommender.py`, `_clean_track_title`)

The source applies `re.sub` with
  * the global pattern `\s*\(.*?\)\s*` (and the `[...]` analogue), and
  * twelve end-anchored, case-insensitive suffix patterns
    `\s*-\s*WORD...\s*$`,
then `str.strip(' -')` and `str.strip()`.  The matchers below implement
exactly those patterns on `List Char`: `.` never matches a newline, `\s`
is `isPyWS`, `$` is end-of-input, lazy `.*?` takes the nearest closing
delimiter, and greedy `\s*` is deterministic because every pattern
follows it with a non-whitespace atom. -/

/-- Scan for the closing delimiter of a lazy `.*?close` group: the first
occurrence of `close`, failing if a newline intervenes (`.` does not
match newlines).  Returns the input after the delimiter. -/
def findCloseDelim (close : Char) : List Char → Option (List Char)
  | [] => none
  | c :: cs =>
    if c == close then some cs
    else if c == '\n' then none
    else findCloseDelim close cs

/-- Attempt to match `\s*OPEN.*?CLOSE\s*` at the head of `l`; on success
return the input after the whole match. -/
def tryDelimMatch (openC closeC : Char) (l : List Char) : Option (List Char) :=
  match l.dropWhile isPyWS with
  | c :: rest =>
    if c == openC then
      match findCloseDelim closeC rest with
      | some rest' => some (rest'.dropWhile isPyWS)
      | none => none
    else none
  | [] => none

/-- `re.sub(r'\s*OPEN.*?CLOSE\s*', '', ·)`: left-to-right scan removing
every match, continuing after each removed region.  Fuelled structurally
(each removed match consumes at least one character, so fuel `l.length`
suffices). -/
def scanDelimSub (openC closeC : Char) : Nat → List Char → List Char
  | 0, l => l
  | _ + 1, [] => []
  | fuel + 1, c :: cs =>
    match tryDelimMatch openC closeC (c :: cs) with
    | some rest => scanDelimSub openC closeC fuel rest
    | none => c :: scanDelimSub openC closeC fuel cs

/-- `re.sub` of one delimiter pattern over the whole input. -/
def subDelim (openC closeC : Char) (l : List Char) : List Char :=
  scanDelimSub openC closeC l.length l

/-- Tail forms of the twelve suffix patterns after their literal words. -/
inductive SufTailKind where
  | plain
  | wsDigits4
  | liveAt

/-- One suffix pattern: literal words (lower-case), each preceded by
`\s*`, followed by a tail form, the whole match anchored at `$`. -/
structure SuffixPattern where
  words : List (List Char)
  tail : SufTailKind

/-- Case-insensitive literal word match; returns the rest of the input. -/
def matchWordCI : List Char → List Char → Option (List Char)
  | [], l => some l
  | _ :: _, [] => none
  | w :: ws, c :: cs => if c.toLower == w then matchWordCI ws cs else none

/-- Match a sequence of literal words, each preceded by `\s*`. -/
def matchWordsCI : List (List Char) → List Char → Option (List Char)
  | [], l => some l
  | w :: ws, l =>
    match matchWordCI w (l.dropWhile isPyWS) with
    | some rest => matchWordsCI ws rest
    | none => none

/-- Is every character whitespace?  This is exactly when `\s*$` matches
a whole remainder. -/
def allPyWS (l : List Char) : Bool := l.all isPyWS

/-- Match the tail of a suffix pattern against the remainder `l`:
`plain` is `\s*$`; `wsDigits4` is `\s*\d{4}\s*$`; `liveAt` is
`\s+At\s+.*\s*$` (the `Live At ...` pattern). -/
def checkSufTail : SufTailKind → List Char → Bool
  | .plain, l => allPyWS l
  | .wsDigits4, l =>
    (match l.dropWhile isPyWS with
     | a :: b :: c :: d :: rest =>
       a.isDigit && b.isDigit && c.isDigit && d.isDigit && allPyWS rest
     | _ => false)
  | .liveAt, l =>
    (match l with
     | [] => false
     | c :: _ =>
       isPyWS c &&
         (match matchWordCI ['a', 't'] (l.dropWhile isPyWS) with
          | none => false
          | some rest =>
            (match rest with
             | [] => false
             | r :: rs =>
               -- `\s+.*\s*$`: one whitespace, then any newline-free
               -- segment, then whitespace to the end; equivalently every
               -- character from the first newline on is whitespace.
               isPyWS r && allPyWS (rs.dropWhile (fun x => !(x == '\n'))))))

/-- Does `\s*-\s*WORDS...TAIL$` match the whole remainder `l`?  (`re`
tries the pattern at each start position; anchored at `$` and with an
empty replacement, a match at position `i` erases everything from `i`.) -/
def sufMatchesAt (p : SuffixPattern) (l : List Char) : Bool :=
  match l.dropWhile isPyWS with
  | '-' :: rest =>
    (match matchWordsCI p.words rest with
     | some rest' => checkSufTail p.tail rest'
     | none => false)
  | _ => false

/-- `re.sub(r'\s*' + pattern + r'\s*$', '', ·, flags=IGNORECASE)`: erase
from the leftmost position where the anchored suffix pattern matches. -/
def stripSuffixPat (p : SuffixPattern) : List Char → List Char
  | [] => []
  | c :: cs => if sufMatchesAt p (c :: cs) then [] else c :: stripSuffixPat p cs

/-- The twelve suffix patterns of `_clean_track_title`, in source order. -/
def suffixPatternsList : List SuffixPattern :=
  [⟨["remastered".data], .wsDigits4⟩,
   ⟨["remastered".data], .plain⟩,
   ⟨["radio".data, "edit".data], .plain⟩,
   ⟨["album".data, "version".data], .plain⟩,
   ⟨["single".data, "version".data], .plain⟩,
   ⟨["live".data, "version".data], .plain⟩,
   ⟨["live".data], .liveAt⟩,
   ⟨["live".data], .plain⟩,
   ⟨["acoustic".data, "version".data], .plain⟩,
   ⟨["acoustic".data], .plain⟩,
   ⟨["explicit".data, "version".data], .plain⟩,
   ⟨["explicit".data], .plain⟩]

/-- Apply the twelve suffix substitutions in order. -/
def stripAllSuffixes (l : List Char) : List Char :=
  suffixPatternsList.foldl (fun acc p => stripSuffixPat p acc) l

/-- `_clean_track_title(title)`: remove `(...)` and `[...]` content,
strip the known suffix patterns, then `strip(' -')` and `strip()`. -/
def _clean_track_title (title : String) : String :=
  let t1 := subDelim '(' ')' title.data
  let t2 := subDelim '[' ']' t1
  let t3 := stripAllSuffixes t2
  let t4 := stripBothEnds isSpaceHyphen t3
  ⟨stripBothEnds isPyWS t4⟩

example : _clean_track_title "Hey Jude - Remastered 2015" = "Hey Jude" := by decide
example : _clean_track_title "Imagine (Ultimate Mix)" = "Imagine" := by decide
example : _clean_track_title "a (b) c" = "ac" := by decide
example : _clean_track_title "Song - Remastered - Live" = "Song - Remastered" := by decide
example : _clean_track_title "Song - Remastered" = "Song" := by decide
example : _clean_track_title "A - Live - Live" = "A - Live" := by decide
example : _clean_track_title "  plain  " = "plain" := by decide

/-! ## LLM transport outcomes

`openai_client.chat.completions.create(...)` either raises (network,
timeout, invalid client — every such exception is caught by the broad
`except` clauses of the source) or returns a completion whose
`choices[0].message.content` is `None` or a string. -/

inductive LLMReply where
  | failure
  | content (text : Option String)

/-! ## LLM Augmentation Adapter (`llm_enhancer.py`,
`augment_song_details_with_llm`) -/

/-- `augment_song_details_with_llm(song_title, artist_name,
existing_details, openai_client, model)`.  A transport failure, empty
content or undecodable JSON returns `existing_details` unchanged (the
`except` clauses); a decoded JSON object is merged with
`dict.copy()`/`dict.update`.  A decoded non-object value makes
`dict.update` raise `TypeError`, caught by the blanket `except`
(CPython would accept a list of key/value pairs; no claim concerns that
corner and no theorem below touches it).  An absent client raises
`AttributeError` inside the `try`, likewise caught. -/
def augment_song_details_with_llm (song_title artist_name : String)
    (existing_details : List (String × Json)) (openai_client : Option LLMReply) :
    List (String × Json) :=
  match openai_client with
  | none => existing_details
  | some .failure => existing_details
  | some (.content none) => existing_details
  | some (.content (some raw)) =>
    if raw = "" then existing_details
    else
      match jsonParse raw with
      | some (.obj fields) => pyDictUpdate existing_details fields
      | some _ => existing_details
      | none => existing_details

/-! ## Lyrical Insight Adapters (`lyrics_analyzer.py`) -/

/-- The sentinel dict returned by `get_lyrical_insights` on empty or
whitespace-only lyrics. -/
def basicEmptyLyricsSentinel : Json :=
  .obj [("themes", .arr []), ("sentiments", .arr []), ("keywords", .arr []),
        ("summary", .str "Lyrics were empty.")]

/-- The sentinel dict returned by `get_rich_lyrical_insights` on empty or
whitespace-only lyrics. -/
def richEmptyLyricsSentinel (song_title artist_name model : String) : Json :=
  .obj [("song_title", .str song_title), ("artist_name", .str artist_name),
        ("analysis_model", .str model),
        ("overall_interpretation", .str "Lyrics were empty."),
        ("concise_summary", .str "Lyrics were empty."),
        ("detailed_breakdown", .obj []),
        ("llm_confidence_notes", .str "Analysis skipped due to empty lyrics.")]

/-- `get_lyrical_insights(lyrics_text, model)`.  Returns the parsed
insight value (or `none` on client absence, transport failure or
undecodable JSON) paired with the number of LLM completion calls made.
`content = None` feeds `json.loads(None)`, whose `TypeError` is caught by
the blanket `except` and yields `None`. -/
def get_lyrical_insights (openai_client : Option LLMReply)
    (lyrics_text : String) : Option Json × Nat :=
  match openai_client with
  | none => (none, 0)
  | some reply =>
    if pyStrip lyrics_text = "" then (some basicEmptyLyricsSentinel, 0)
    else
      match reply with
      | .failure => (none, 1)
      | .content none => (none, 1)
      | .content (some raw) =>
        match jsonParse raw with
        | some j => (some j, 1)
        | none => (none, 1)

/-- `get_rich_lyrical_insights(lyrics_text, song_title, artist_name,
openai_client, model)`, with the same conventions as
`get_lyrical_insights`. -/
def get_rich_lyrical_insights (lyrics_text song_title artist_name : String)
    (openai_client : Option LLMReply) (model : String) : Option Json × Nat :=
  match openai_client with
  | none => (none, 0)
  | some reply =>
    if pyStrip lyrics_text = "" then
      (some (richEmptyLyricsSentinel song_title artist_name model), 0)
    else
      match reply with
      | .failure => (none, 1)
      | .content none => (none, 1)
      | .content (some raw) =>
        match jsonParse raw with
        | some j => (some j, 1)
        | none => (none, 1)

/-! ## Holistic Recommendation Generator (`recommender.py`,
`get_holistic_llm_recommendations`) -/

/-- Markdown-fence stripping of the raw reply: only applied when the
stripped text starts with ```` ```json ````, exactly as in the source. -/
def stripFences (raw : String) : String :=
  let t := stripBothEnds isPyWS raw.data
  if startsWithChars "```json".data t then
    let t2 := stripBothEnds isPyWS (t.drop 7)
    if endsWithChars "```".data t2 then
      ⟨stripBothEnds isPyWS (t2.take (t2.length - 3))⟩
    else ⟨t2⟩
  else raw

/-- First list-valued field of a decoded object, in insertion order —
the value the source's `for key, value in recommendations.items()` loop
returns. -/
def firstListValue : List (String × Json) → Option (List Json)
  | [] => none
  | (_, .arr xs) :: _ => some xs
  | _ :: rest => firstListValue rest

/-- Shape dispatch on the decoded reply: a list is accepted directly; a
dict containing a list-valued field yields its first such value; every
other decoded value reaches a `return []` branch of the source. -/
def dispatchParsed : Json → Option (List Json)
  | .arr xs => some xs
  | .obj fields =>
    (match firstListValue fields with
     | some xs => some xs
     | none => some [])
  | _ => some []

/-- `get_holistic_llm_recommendations(liked_songs_enriched_details,
openai_client, model)`.  First component: `none` models the Python
`None` return, `some l` the returned list.  Second component: number of
LLM completion calls made.  (`json.dumps` of the liked list cannot fail
for `Json`-valued records, and its result only feeds the prompt text,
which does not influence the modelled outcome.) -/
def get_holistic_llm_recommendations (openai_client : Option LLMReply)
    (liked_songs_enriched_details : List Json) : Option (List Json) × Nat :=
  match openai_client with
  | none => (none, 0)
  | some reply =>
    if liked_songs_enriched_details.isEmpty then (some [], 0)
    else
      match reply with
      | .failure => (none, 1)
      | .content none => (some [], 1)
      | .content (some raw) =>
        if raw = "" then (some [], 1)
        else
          match jsonParse (stripFences raw) with
          | some j => (dispatchParsed j, 1)
          | none => (none, 1)

/-! ## Helper lemmas about the normalizer -/

theorem dropWhile_head?_not {α : Type} (p : α → Bool) :
    ∀ (l : List α) (a : α), (l.dropWhile p).head? = some a → p a = false := by
  intro l
  induction l with
  | nil => intro a h; simp [List.dropWhile] at h
  | cons c cs ih =>
    intro a h
    rw [List.dropWhile_cons] at h
    by_cases hc : p c = true
    · rw [if_pos hc] at h
      exact ih a h
    · rw [if_neg hc] at h
      simp only [List.head?_cons, Option.some.injEq] at h
      rw [← h]
      exact Bool.eq_false_iff.mpr hc

theorem dropWhile_getLast?_some {α : Type} (p : α → Bool) :
    ∀ (l : List α) (a : α), (l.dropWhile p).getLast? = some a →
      l.getLast? = some a := by
  intro l
  induction l with
  | nil => intro a h; simp [List.dropWhile] at h
  | cons c cs ih =>
    intro a h
    rw [List.dropWhile_cons] at h
    by_cases hc : p c = true
    · rw [if_pos hc] at h
      have hcs := ih a h
      cases cs with
      | nil => simp at hcs
      | cons d ds => rw [List.getLast?_cons_cons]; exact hcs
    · rw [if_neg hc] at h
      exact h

theorem dropWhile_eq_self_of_head? {α : Type} (p : α → Bool) (l : List α)
    (h : ∀ a, l.head? = some a → p a = false) : l.dropWhile p = l := by
  cases l with
  | nil => rfl
  | cons c cs =>
    have hc := h c rfl
    rw [List.dropWhile_cons, if_neg (by simp [hc])]

theorem stripBothEnds_subset (p : Char → Bool) (l : List Char) :
    stripBothEnds p l ⊆ l := by
  intro a ha
  unfold stripBothEnds at ha
  rw [List.mem_reverse] at ha
  have h1 : a ∈ (l.dropWhile p).reverse :=
    (List.dropWhile_suffix p).sublist.subset ha
  rw [List.mem_reverse] at h1
  exact (List.dropWhile_suffix p).sublist.subset h1

theorem stripBothEnds_head?_not (p : Char → Bool) (l : List Char) (a : Char)
    (h : (stripBothEnds p l).head? = some a) : p a = false := by
  unfold stripBothEnds at h
  rw [List.head?_reverse] at h
  have h2 := dropWhile_getLast?_some p ((l.dropWhile p).reverse) a h
  rw [List.getLast?_reverse] at h2
  exact dropWhile_head?_not p l a h2

theorem stripBothEnds_getLast?_not (p : Char → Bool) (l : List Char) (a : Char)
    (h : (stripBothEnds p l).getLast? = some a) : p a = false := by
  unfold stripBothEnds at h
  rw [List.getLast?_reverse] at h
  exact dropWhile_head?_not p ((l.dropWhile p).reverse) a h

theorem stripBothEnds_eq_self (q : Char → Bool) (m : List Char)
    (h1 : ∀ a, m.head? = some a → q a = false)
    (h2 : ∀ a, m.getLast? = some a → q a = false) :
    stripBothEnds q m = m := by
  unfold stripBothEnds
  rw [dropWhile_eq_self_of_head? q m h1]
  rw [dropWhile_eq_self_of_head? q m.reverse (by
    intro a ha
    rw [List.head?_reverse] at ha
    exact h2 a ha)]
  exact List.reverse_reverse m

theorem tryDelimMatch_mem {oc cc : Char} {l r : List Char}
    (h : tryDelimMatch oc cc l = some r) : oc ∈ l := by
  unfold tryDelimMatch at h
  split at h
  case _ c rest hd =>
    by_cases hc : c == oc
    · have hceq : c = oc := by simpa using hc
      have hmem : oc ∈ l.dropWhile isPyWS := by
        rw [hd, ← hceq]; exact List.mem_cons_self c rest
      exact (List.dropWhile_suffix isPyWS).sublist.subset hmem
    · rw [if_neg (by simpa using hc)] at h
      exact absurd h (by simp)
  case _ => exact absurd h (by simp)

theorem scanDelimSub_eq_self (oc cc : Char) :
    ∀ (fuel : Nat) (l : List Char), oc ∉ l → scanDelimSub oc cc fuel l = l := by
  intro fuel
  induction fuel with
  | zero => intro l _; rfl
  | succ n ih =>
    intro l hl
    cases l with
    | nil => rfl
    | cons c cs =>
      cases htm : tryDelimMatch oc cc (c :: cs) with
      | some rest => exact absurd (tryDelimMatch_mem htm) hl
      | none =>
        show (match tryDelimMatch oc cc (c :: cs) with
              | some rest => scanDelimSub oc cc n rest
              | none => c :: scanDelimSub oc cc n cs) = c :: cs
        rw [htm]
        have : oc ∉ cs := fun hm => hl (List.mem_cons_of_mem c hm)
        rw [ih cs this]

theorem subDelim_eq_self {oc cc : Char} {l : List Char} (h : oc ∉ l) :
    subDelim oc cc l = l :=
  scanDelimSub_eq_self oc cc l.length l h

theorem sufMatchesAt_mem {p : SuffixPattern} {l : List Char}
    (h : sufMatchesAt p l = true) : '-' ∈ l := by
  unfold sufMatchesAt at h
  split at h
  case _ rest hd =>
    have hmem : '-' ∈ l.dropWhile isPyWS := by
      rw [hd]; exact List.mem_cons_self _ rest
    exact (List.dropWhile_suffix isPyWS).sublist.subset hmem
  case _ => exact absurd h (by simp)

theorem stripSuffixPat_eq_self {p : SuffixPattern} :
    ∀ {l : List Char}, '-' ∉ l → stripSuffixPat p l = l := by
  intro l
  induction l with
  | nil => intro _; rfl
  | cons c cs ih =>
    intro hl
    show (if sufMatchesAt p (c :: cs) then [] else c :: stripSuffixPat p cs) = c :: cs
    cases hm : sufMatchesAt p (c :: cs) with
    | true => exact absurd (sufMatchesAt_mem hm) hl
    | false =>
      simp only [Bool.false_eq_true, if_false]
      rw [ih (fun hmem => hl (List.mem_cons_of_mem c hmem))]

theorem stripAllSuffixes_eq_self {l : List Char} (h : '-' ∉ l) :
    stripAllSuffixes l = l := by
  unfold stripAllSuffixes
  generalize suffixPatternsList = ps
  induction ps with
  | nil => rfl
  | cons p ps ih => rw [List.foldl_cons, stripSuffixPat_eq_self h]; exact ih

theorem mem_of_head?_some {α : Type} {l : List α} {a : α}
    (h : l.head? = some a) : a ∈ l := by
  cases l with
  | nil => simp at h
  | cons c cs =>
    simp only [List.head?_cons, Option.some.injEq] at h
    rw [← h]
    exact List.mem_cons_self c cs

theorem mem_of_getLast?_some {α : Type} {l : List α} {a : α}
    (h : l.getLast? = some a) : a ∈ l := by
  rw [← List.head?_reverse] at h
  rw [← List.mem_reverse]
  exact mem_of_head?_some h

theorem clean_track_title_of_no_markers {x : String}
    (h1 : '-' ∉ x.data) (h2 : '(' ∉ x.data) (h3 : '[' ∉ x.data) :
    _clean_track_title x =
      ⟨stripBothEnds isPyWS (stripBothEnds isSpaceHyphen x.data)⟩ := by
  unfold _clean_track_title
  simp only [subDelim_eq_self h2, subDelim_eq_self h3, stripAllSuffixes_eq_self h1]

/-! ## Claim C8 — idempotence of title normalization -/

/-- C8, counterexample: title normalization is not idempotent.  On
`"Song - Remastered - Live"` one pass removes only `- Live` (the
`- Remastered` pattern is applied before `- Live` exposes it), so a
second pass shortens the result further. -/
theorem c8_counterexample :
    _clean_track_title "Song - Remastered - Live" = "Song - Remastered" ∧
    _clean_track_title (_clean_track_title "Song - Remastered - Live") = "Song" ∧
    _clean_track_title (_clean_track_title "Song - Remastered - Live") ≠
      _clean_track_title "Song - Remastered - Live" := by
  refine ⟨by decide, by decide, by decide⟩

/-- C8, amended: a second application of `_clean_track_title` can strip a
suffix that the first application exposed, so idempotence fails in
general; it holds for every title containing no hyphen, no opening
parenthesis and no opening bracket, where cleaning reduces to
end-trimming. -/
theorem c8_normalize_title_idempotent_no_markers (x : String)
    (h1 : '-' ∉ x.data) (h2 : '(' ∉ x.data) (h3 : '[' ∉ x.data) :
    _clean_track_title (_clean_track_title x) = _clean_track_title x := by
  have hx := clean_track_title_of_no_markers h1 h2 h3
  set m := stripBothEnds isPyWS (stripBothEnds isSpaceHyphen x.data) with hmdef
  have hsub : ∀ a, a ∈ m → a ∈ x.data := by
    intro a ha
    rw [hmdef] at ha
    exact stripBothEnds_subset isSpaceHyphen x.data (stripBothEnds_subset isPyWS _ ha)
  have h1m : '-' ∉ m := fun hin => h1 (hsub _ hin)
  have h2m : '(' ∉ m := fun hin => h2 (hsub _ hin)
  have h3m : '[' ∉ m := fun hin => h3 (hsub _ hin)
  rw [hx]
  have hclean2 := clean_track_title_of_no_markers
    (x := ⟨m⟩) h1m h2m h3m
  rw [hclean2]
  have e1 : stripBothEnds isSpaceHyphen m = m := by
    apply stripBothEnds_eq_self
    · intro a ha
      have hws := stripBothEnds_head?_not isPyWS (stripBothEnds isSpaceHyphen x.data) a
        (by rw [← hmdef]; exact ha)
      have hamem : a ∈ m := mem_of_head?_some ha
      have hsp : a ≠ ' ' := by intro he; rw [he] at hws; simp [isPyWS] at hws
      have hhy : a ≠ '-' := fun he => h1m (he ▸ hamem)
      simp [isSpaceHyphen, hsp, hhy]
    · intro a ha
      have hws := stripBothEnds_getLast?_not isPyWS (stripBothEnds isSpaceHyphen x.data) a
        (by rw [← hmdef]; exact ha)
      have hamem : a ∈ m := mem_of_getLast?_some ha
      have hsp : a ≠ ' ' := by intro he; rw [he] at hws; simp [isPyWS] at hws
      have hhy : a ≠ '-' := fun he => h1m (he ▸ hamem)
      simp [isSpaceHyphen, hsp, hhy]
  have e2 : stripBothEnds isPyWS m = m := by
    apply stripBothEnds_eq_self
    · intro a ha
      exact stripBothEnds_head?_not isPyWS (stripBothEnds isSpaceHyphen x.data) a
        (by rw [← hmdef]; exact ha)
    · intro a ha
      exact stripBothEnds_getLast?_not isPyWS (stripBothEnds isSpaceHyphen x.data) a
        (by rw [← hmdef]; exact ha)
  show (⟨stripBothEnds isPyWS (stripBothEnds isSpaceHyphen m)⟩ : String) = ⟨m⟩
  rw [e1, e2]

/-- C8, witness for the amended theorem at the concrete title
`"Hello World"`. -/
theorem c8_normalize_title_idempotent_no_markers_witness :
    ('-' ∉ "Hello World".data ∧ '(' ∉ "Hello World".data ∧
      '[' ∉ "Hello World".data) ∧
    _clean_track_title (_clean_track_title "Hello World") =
      _clean_track_title "Hello World" :=
  ⟨⟨by decide, by decide, by decide⟩,
    c8_normalize_title_idempotent_no_markers "Hello World"
      (by decide) (by decide) (by decide)⟩

/-! ## Claims C3 and C4 — Similarity Engine -/

/-- C3: for every pair of song records, a missing `lyrical_insights` key
is treated exactly like explicitly empty theme/keyword sets, on whichever
side it is missing; the similarity computation is a total function, so a
score is always returned and no error is raised. -/
theorem c3_missing_insights_treated_as_empty (a b : SongContentDetails)
    (w : Option SimWeights) (h : a.lyrical_insights = none) :
    calculate_song_content_similarity a b w =
      calculate_song_content_similarity ⟨a.artist_genres, some emptyInsightsFacets⟩ b w ∧
    calculate_song_content_similarity b a w =
      calculate_song_content_similarity b ⟨a.artist_genres, some emptyInsightsFacets⟩ w := by
  constructor
  · unfold calculate_song_content_similarity
    rw [h]
    rfl
  · unfold calculate_song_content_similarity
    rw [h]
    rfl

/-- C3, witness at a concrete pair with the left record missing
`lyrical_insights`. -/
theorem c3_missing_insights_treated_as_empty_witness :
    calculate_song_content_similarity ⟨some ["rock"], none⟩
        ⟨none, some ⟨some ["love"], none⟩⟩ none =
      calculate_song_content_similarity ⟨some ["rock"], some emptyInsightsFacets⟩
        ⟨none, some ⟨some ["love"], none⟩⟩ none :=
  (c3_missing_insights_treated_as_empty ⟨some ["rock"], none⟩
    ⟨none, some ⟨some ["love"], none⟩⟩ none rfl).1

/-- Jaccard similarity of a nonempty set with itself is `1`. -/
theorem jaccard_self_of_nonempty (s : Finset String) (h : s ≠ ∅) :
    _calculate_jaccard_similarity s s = 1 := by
  have hcard : s.card ≠ 0 := fun hc => h (Finset.card_eq_zero.mp hc)
  simp only [_calculate_jaccard_similarity, Finset.inter_self, Finset.union_self]
  rw [if_neg hcard]
  exact div_self (Nat.cast_ne_zero.mpr hcard)

/-- C4, counterexample: two records that are identical on every facet
(the same record twice, all facets empty) score `0`, not `1`, under the
default weights, because each facet's Jaccard similarity is defined to be
`0` when both sets are empty. -/
theorem c4_counterexample :
    calculate_song_content_similarity ⟨none, none⟩ ⟨none, none⟩ none = 0 ∧
    calculate_song_content_similarity ⟨none, none⟩ ⟨none, none⟩ none ≠ 1 := by
  constructor
  · simp [calculate_song_content_similarity, _calculate_jaccard_similarity]
  · simp [calculate_song_content_similarity, _calculate_jaccard_similarity]

/-- C4, amended: with the default weights `{genre: 3/10, theme: 4/10,
keyword: 3/10}`, two records with equal genre, theme and keyword sets
score exactly `1` provided each of the three facets is nonempty (for an
empty facet the source defines the Jaccard score as `0`, so the total
drops below `1`). -/
theorem c4_identical_nonempty_facets_score_one (a b : SongContentDetails)
    (hg : genreFacet a = genreFacet b) (ht : themeFacet a = themeFacet b)
    (hk : keywordFacet a = keywordFacet b)
    (hg0 : genreFacet a ≠ ∅) (ht0 : themeFacet a ≠ ∅) (hk0 : keywordFacet a ≠ ∅) :
    calculate_song_content_similarity a b none = 1 := by
  rw [calculate_song_content_similarity_facets, ← hg, ← ht, ← hk]
  rw [jaccard_self_of_nonempty _ hg0, jaccard_self_of_nonempty _ ht0,
    jaccard_self_of_nonempty _ hk0]
  norm_num

/-- C4, witness for the amended theorem: a concrete record that is
identical to itself on every facet, with every facet nonempty, scores
exactly `1`. -/
theorem c4_identical_nonempty_facets_score_one_witness :
    (genreFacet ⟨some ["rock"], some ⟨some ["love"], some ["fire"]⟩⟩ ≠ ∅ ∧
      themeFacet ⟨some ["rock"], some ⟨some ["love"], some ["fire"]⟩⟩ ≠ ∅ ∧
      keywordFacet ⟨some ["rock"], some ⟨some ["love"], some ["fire"]⟩⟩ ≠ ∅) ∧
    calculate_song_content_similarity
      ⟨some ["rock"], some ⟨some ["love"], some ["fire"]⟩⟩
      ⟨some ["rock"], some ⟨some ["love"], some ["fire"]⟩⟩ none = 1 :=
  ⟨⟨by decide, by decide, by decide⟩,
    c4_identical_nonempty_facets_score_one
      ⟨some ["rock"], some ⟨some ["love"], some ["fire"]⟩⟩
      ⟨some ["rock"], some ⟨some ["love"], some ["fire"]⟩⟩
      rfl rfl rfl (by decide) (by decide) (by decide)⟩

/-! ## Helper lemmas about Python dict update -/

theorem jLookup_map_replace_self (d : List (String × Json)) (k : String)
    (v : Json) (h : (d.any fun kv => kv.1 == k) = true) :
    jLookup (d.map fun kv => if kv.1 == k then (k, v) else kv) k = some v := by
  induction d with
  | nil => simp at h
  | cons hd tl ih =>
    rw [List.map_cons]
    by_cases hhd : (hd.1 == k) = true
    · rw [if_pos hhd]
      simp only [jLookup]
      rw [if_pos (beq_self_eq_true k)]
    · have hfalse : (hd.1 == k) = false := by
        cases hb : hd.1 == k
        · rfl
        · exact absurd hb hhd
      rw [if_neg (by simp [hfalse])]
      simp only [jLookup]
      rw [if_neg (by simp [hfalse])]
      apply ih
      rcases List.any_eq_true.mp h with ⟨kv, hkv, hkvk⟩
      rcases List.mem_cons.mp hkv with h1 | h2
      · rw [h1] at hkvk
        rw [hkvk] at hfalse
        cases hfalse
      · exact List.any_eq_true.mpr ⟨kv, h2, hkvk⟩

theorem jLookup_map_replace_other (d : List (String × Json)) (k : String)
    (v : Json) (k' : String) (hk : k ≠ k') :
    jLookup (d.map fun kv => if kv.1 == k then (k, v) else kv) k' =
      jLookup d k' := by
  induction d with
  | nil => rfl
  | cons hd tl ih =>
    rw [List.map_cons]
    by_cases hhd : (hd.1 == k) = true
    · have hhdeq : hd.1 = k := by simpa using hhd
      rw [if_pos hhd]
      simp only [jLookup]
      rw [if_neg (by simp [hk]), if_neg (by simp [hhdeq, hk])]
      exact ih
    · rw [if_neg hhd]
      simp only [jLookup]
      by_cases hhd' : (hd.1 == k') = true
      · rw [if_pos hhd', if_pos hhd']
      · rw [if_neg hhd', if_neg hhd']
        exact ih

theorem jLookup_append_right (d e : List (String × Json)) (k : String)
    (h : (d.any fun kv => kv.1 == k) = false) :
    jLookup (d ++ e) k = jLookup e k := by
  induction d with
  | nil => rfl
  | cons hd tl ih =>
    rw [List.cons_append]
    simp only [jLookup]
    rw [List.any_cons] at h
    rcases Bool.or_eq_false_iff.mp h with ⟨h1, h2⟩
    rw [if_neg (by simp [h1])]
    exact ih h2

theorem jLookup_append_single_other (d : List (String × Json)) (k : String)
    (v : Json) (k' : String) (hk : k ≠ k') :
    jLookup (d ++ [(k, v)]) k' = jLookup d k' := by
  induction d with
  | nil =>
    simp only [List.nil_append, jLookup]
    rw [if_neg (by simp [hk])]
  | cons hd tl ih =>
    rw [List.cons_append]
    simp only [jLookup]
    by_cases hhd' : (hd.1 == k') = true
    · rw [if_pos hhd', if_pos hhd']
    · rw [if_neg hhd', if_neg hhd']
      exact ih

theorem jLookup_pyDictInsert_self (d : List (String × Json)) (k : String)
    (v : Json) : jLookup (pyDictInsert d k v) k = some v := by
  unfold pyDictInsert
  by_cases hany : (d.any fun kv => kv.1 == k) = true
  · rw [if_pos hany]
    exact jLookup_map_replace_self d k v hany
  · have hfalse : (d.any fun kv => kv.1 == k) = false := by
      cases hb : d.any fun kv => kv.1 == k
      · rfl
      · exact absurd hb hany
    rw [if_neg hany]
    rw [jLookup_append_right d [(k, v)] k hfalse]
    simp only [jLookup]
    rw [if_pos (beq_self_eq_true k)]

theorem jLookup_pyDictInsert_other (d : List (String × Json)) (k : String)
    (v : Json) (k' : String) (hk : k ≠ k') :
    jLookup (pyDictInsert d k v) k' = jLookup d k' := by
  unfold pyDictInsert
  by_cases hany : (d.any fun kv => kv.1 == k) = true
  · rw [if_pos hany]
    exact jLookup_map_replace_other d k v k' hk
  · rw [if_neg hany]
    exact jLookup_append_single_other d k v k' hk

theorem jLookup_none_all (u : List (String × Json)) (k : String)
    (h : jLookup u k = none) : ∀ kv ∈ u, (kv.1 == k) = false := by
  induction u with
  | nil => intro kv hkv; cases hkv
  | cons hd tl ih =>
    intro kv hkv
    simp only [jLookup] at h
    by_cases hhd : (hd.1 == k) = true
    · rw [if_pos hhd] at h
      cases h
    · have hfalse : (hd.1 == k) = false := by
        cases hb : hd.1 == k
        · rfl
        · exact absurd hb hhd
      rw [if_neg hhd] at h
      rcases List.mem_cons.mp hkv with h1 | h2
      · rw [h1]
        exact hfalse
      · exact ih h kv h2

theorem jLookup_pyDictUpdate_not_mem (u : List (String × Json)) :
    ∀ (d : List (String × Json)) (k : String),
      (∀ kv ∈ u, (kv.1 == k) = false) →
      jLookup (pyDictUpdate d u) k = jLookup d k := by
  induction u with
  | nil => intro d k _; rfl
  | cons hd tl ih =>
    intro d k h
    have hhd : (hd.1 == k) = false := h hd (List.mem_cons_self hd tl)
    have hne : hd.1 ≠ k := by simpa using hhd
    show jLookup (pyDictUpdate (pyDictInsert d hd.1 hd.2) tl) k = jLookup d k
    rw [ih (pyDictInsert d hd.1 hd.2) k
      (fun kv hkv => h kv (List.mem_cons_of_mem hd hkv))]
    exact jLookup_pyDictInsert_other d hd.1 hd.2 k hne

theorem jLookup_pyDictUpdate_some (u : List (String × Json)) :
    ∀ (d : List (String × Json)) (k : String) (v : Json),
      (u.map Prod.fst).Nodup → jLookup u k = some v →
      jLookup (pyDictUpdate d u) k = some v := by
  induction u with
  | nil => intro d k v _ h; cases h
  | cons hd tl ih =>
    intro d k v hnd h
    simp only [jLookup] at h
    rw [List.map_cons, List.nodup_cons] at hnd
    by_cases hhd : (hd.1 == k) = true
    · have hhdeq : hd.1 = k := by simpa using hhd
      rw [if_pos hhd] at h
      -- the updated key is `k` itself; no later field of `tl` touches `k`
      have htl : ∀ kv ∈ tl, (kv.1 == k) = false := by
        intro kv hkv
        have : kv.1 ≠ k := by
          intro he
          exact hnd.1 (by rw [← hhdeq] at he; exact he ▸ List.mem_map_of_mem Prod.fst hkv)
        simpa using this
      show jLookup (pyDictUpdate (pyDictInsert d hd.1 hd.2) tl) k = some v
      rw [jLookup_pyDictUpdate_not_mem tl (pyDictInsert d hd.1 hd.2) k htl]
      have hv : hd.2 = v := Option.some.inj h
      rw [hhdeq, hv]
      exact jLookup_pyDictInsert_self d k v
    · rw [if_neg hhd] at h
      exact ih (pyDictInsert d hd.1 hd.2) k v hnd.2 h

/-! ## Claims C5 and C6 — LLM Augmentation Adapter -/

/-- C5: on a transport failure, and on any reply that is not valid JSON,
the augmentation adapter returns `existing_details` itself — the very
same record, so no key is added, removed or modified — and, the
embedding being a total function (every exception of the source is
caught by its `except` clauses), no exception reaches the caller. -/
theorem c5_augment_failure_returns_existing (song_title artist_name : String)
    (existing : List (String × Json)) (raw : String)
    (h : jsonParse raw = none) :
    augment_song_details_with_llm song_title artist_name existing
        (some .failure) = existing ∧
    augment_song_details_with_llm song_title artist_name existing
        (some (.content (some raw))) = existing := by
  constructor
  · rfl
  · simp only [augment_song_details_with_llm]
    by_cases hr : raw = ""
    · rw [if_pos hr]
    · rw [if_neg hr, h]

/-- C5, witness at the concrete non-JSON reply `"not json"`. -/
theorem c5_augment_failure_returns_existing_witness :
    jsonParse "not json" = none ∧
    augment_song_details_with_llm "Trains" "Porcupine Tree"
        [("genre", Json.str "rock")] (some (.content (some "not json"))) =
      [("genre", Json.str "rock")] :=
  ⟨rfl, (c5_augment_failure_returns_existing "Trains" "Porcupine Tree"
    [("genre", Json.str "rock")] "not json" rfl).2⟩

/-- C6: for every valid JSON object reply, the adapter returns the merge
of `existing_details` with the decoded object: every key of the reply is
present with the reply's value (overwriting a same-named key of
`existing_details`), and every key of `existing_details` not named in
the reply keeps its original value.  The uniqueness hypothesis on the
reply's keys is guaranteed for every value `json.loads` produces. -/
theorem c6_augment_merge_semantics (song_title artist_name : String)
    (existing : List (String × Json)) (raw : String)
    (fields : List (String × Json))
    (hparse : jsonParse raw = some (.obj fields))
    (hnd : (fields.map Prod.fst).Nodup) :
    (∀ k v, jLookup fields k = some v →
      jLookup (augment_song_details_with_llm song_title artist_name existing
        (some (.content (some raw)))) k = some v) ∧
    (∀ k, jLookup fields k = none →
      jLookup (augment_song_details_with_llm song_title artist_name existing
        (some (.content (some raw)))) k = jLookup existing k) := by
  have hraw : raw ≠ "" := by
    intro he
    rw [he] at hparse
    have h0 : jsonParse "" = none := rfl
    rw [h0] at hparse
    cases hparse
  have hfun : augment_song_details_with_llm song_title artist_name existing
      (some (.content (some raw))) = pyDictUpdate existing fields := by
    simp only [augment_song_details_with_llm]
    rw [if_neg hraw, hparse]
  rw [hfun]
  exact ⟨fun k v hv => jLookup_pyDictUpdate_some fields existing k v hnd hv,
    fun k hn => jLookup_pyDictUpdate_not_mem fields existing k
      (jLookup_none_all fields k hn)⟩

/-- C6, witness: the spec's own example — `existing = {"genre": "rock"}`
merged with the reply `{"genre": "metal", "composers": ["A"]}` maps
`genre` to `"metal"` (LLM wins the collision). -/
theorem c6_augment_merge_semantics_witness :
    jsonParse "\x7b\"genre\": \"metal\", \"composers\": [\"A\"]\x7d" =
      some (.obj [("genre", Json.str "metal"),
        ("composers", Json.arr [Json.str "A"])]) ∧
    jLookup (augment_song_details_with_llm "Trains" "Porcupine Tree"
        [("genre", Json.str "rock")]
        (some (.content (some "\x7b\"genre\": \"metal\", \"composers\": [\"A\"]\x7d"))))
        "genre" = some (Json.str "metal") :=
  ⟨rfl, (c6_augment_merge_semantics "Trains" "Porcupine Tree"
      [("genre", Json.str "rock")]
      "\x7b\"genre\": \"metal\", \"composers\": [\"A\"]\x7d"
      [("genre", Json.str "metal"), ("composers", Json.arr [Json.str "A"])]
      rfl (by decide)).1 "genre" (Json.str "metal") rfl⟩

/-! ## Claims C7, C9 and C10 — short-circuits of the adapters -/

/-- C7: with the OpenAI client available (the adapters check the client
before anything else and return `None` without it — the only situation
in which invoking the LLM capability is meaningful), every empty or
whitespace-only lyrics input makes both the basic and the rich adapter
return their "lyrics were empty" sentinel with zero LLM completion
calls. -/
theorem c7_empty_lyrics_sentinel_without_llm_call (c : LLMReply)
    (lyrics song_title artist_name model : String)
    (h : pyStrip lyrics = "") :
    get_lyrical_insights (some c) lyrics = (some basicEmptyLyricsSentinel, 0) ∧
    get_rich_lyrical_insights lyrics song_title artist_name (some c) model =
      (some (richEmptyLyricsSentinel song_title artist_name model), 0) := by
  constructor
  · simp only [get_lyrical_insights]
    rw [if_pos h]
  · simp only [get_rich_lyrical_insights]
    rw [if_pos h]

/-- C7, witness at the whitespace-only lyrics `"  \t "`. -/
theorem c7_empty_lyrics_sentinel_without_llm_call_witness :
    pyStrip "  \t " = "" ∧
    get_lyrical_insights (some .failure) "  \t " =
      (some basicEmptyLyricsSentinel, 0) ∧
    get_rich_lyrical_insights "  \t " "The Sound of Silence"
        "Simon & Garfunkel" (some .failure) "gpt-4o" =
      (some (richEmptyLyricsSentinel "The Sound of Silence"
        "Simon & Garfunkel" "gpt-4o"), 0) :=
  ⟨rfl,
    (c7_empty_lyrics_sentinel_without_llm_call .failure "  \t "
      "The Sound of Silence" "Simon & Garfunkel" "gpt-4o" rfl).1,
    (c7_empty_lyrics_sentinel_without_llm_call .failure "  \t "
      "The Sound of Silence" "Simon & Garfunkel" "gpt-4o" rfl).2⟩

/-- C9: for every non-`None` client, an empty liked-song list makes the
holistic generator return `[]` immediately, with zero LLM completion
calls. -/
theorem c9_empty_liked_list_returns_empty_without_call (c : LLMReply) :
    get_holistic_llm_recommendations (some c) [] = (some [], 0) := rfl

/-- C10: on empty lyrics (client available), the basic adapter's sentinel
record has exactly the keys `themes`, `sentiments`, `keywords` and
`summary`; the summary text sits under `"summary"` and no
`"overall_summary"` key exists — unlike the 4-field schema the LLM is
asked for on a successful analysis. -/
theorem c10_basic_sentinel_key_shape (c : LLMReply) (lyrics : String)
    (h : pyStrip lyrics = "") :
    ∃ fields, (get_lyrical_insights (some c) lyrics).1 = some (.obj fields) ∧
      fields.map Prod.fst = ["themes", "sentiments", "keywords", "summary"] ∧
      jLookup fields "summary" = some (.str "Lyrics were empty.") ∧
      jLookup fields "overall_summary" = none := by
  refine ⟨[("themes", .arr []), ("sentiments", .arr []), ("keywords", .arr []),
    ("summary", .str "Lyrics were empty.")], ?_, rfl, rfl, rfl⟩
  simp only [get_lyrical_insights]
  rw [if_pos h]
  rfl

/-- C10, witness at the empty string. -/
theorem c10_basic_sentinel_key_shape_witness :
    pyStrip "" = "" ∧
    ∃ fields, (get_lyrical_insights (some .failure) "").1 = some (.obj fields) ∧
      fields.map Prod.fst = ["themes", "sentiments", "keywords", "summary"] ∧
      jLookup fields "summary" = some (.str "Lyrics were empty.") ∧
      jLookup fields "overall_summary" = none :=
  ⟨rfl, c10_basic_sentinel_key_shape .failure "" rfl⟩

/-! ## Claims C1 and C2 — Holistic Recommendation Generator -/

/-- Modelled from the spec: the overlap check the spec attributes to the
holistic generator ("never overlaps the input liked-song set (checked by
normalized title+artist comparison, case-insensitive)").  No such check
exists anywhere in `get_holistic_llm_recommendations` or its callers —
the source only *asks* the LLM not to repeat liked songs in the prompt
text — so this predicate follows the spec's words (titles normalized
with the source's `_clean_track_title`, compared case-insensitively) and
is used to exhibit a returned recommendation matching a liked song. -/
def specNormalizedSongMatch (recTitle recArtist likedTitle likedArtist : String) :
    Bool :=
  pyLower (_clean_track_title recTitle) == pyLower (_clean_track_title likedTitle) &&
    pyLower recArtist == pyLower likedArtist

/-- String field of a decoded JSON object, when present. -/
def jStrField (j : Json) (k : String) : Option String :=
  match j with
  | .obj fields =>
    (match jLookup fields k with
     | some (.str s) => some s
     | _ => none)
  | _ => none

/-- Modelled from the spec: does a returned recommendation match a song
of the liked list under the spec's normalized title+artist comparison? -/
def specRecMatchesLiked (rec liked : Json) : Bool :=
  match jStrField rec "title", jStrField rec "artist",
      jStrField liked "title", jStrField liked "artist" with
  | some rt, some ra, some lt, some la => specNormalizedSongMatch rt ra lt la
  | _, _, _, _ => false

/-- C1, counterexample: a liked list containing `{title: "X", artist:
"Y"}` and an LLM reply recommending exactly that song — the generator
returns the recommendation anyway (nothing is rejected or excluded), and
it matches the liked song under the spec's normalized case-insensitive
comparison. -/
theorem c1_counterexample :
    get_holistic_llm_recommendations
        (some (.content (some
          "[\x7b\"artist\": \"Y\", \"title\": \"X\", \"justification\": \"J\"\x7d]")))
        [Json.obj [("title", .str "X"), ("artist", .str "Y")]] =
      (some [Json.obj [("artist", .str "Y"), ("title", .str "X"),
        ("justification", .str "J")]], 1) ∧
    specRecMatchesLiked
        (Json.obj [("artist", .str "Y"), ("title", .str "X"),
          ("justification", .str "J")])
        (Json.obj [("title", .str "X"), ("artist", .str "Y")]) = true := by
  constructor
  · rfl
  · decide

/-- C1, amended: the holistic generator applies no overlap filter at
all — whenever the (fence-stripped) reply decodes to a JSON list, that
list is returned verbatim, so a recommendation whose normalized title
and artist match a liked song is returned rather than rejected;
non-overlap is only requested from the LLM inside the prompt. -/
theorem c1_parsed_list_returned_verbatim (liked : List Json) (raw : String)
    (xs : List Json) (hliked : liked ≠ []) (hraw : raw ≠ "")
    (hparse : jsonParse (stripFences raw) = some (.arr xs)) :
    get_holistic_llm_recommendations (some (.content (some raw))) liked =
      (some xs, 1) := by
  have hne : liked.isEmpty = false := by
    cases liked with
    | nil => exact absurd rfl hliked
    | cons a as => rfl
  simp only [get_holistic_llm_recommendations, hne]
  rw [if_neg hraw, hparse]
  rfl

/-- C1, witness for the amended theorem at the counterexample's input. -/
theorem c1_parsed_list_returned_verbatim_witness :
    ([Json.obj [("title", Json.str "X"), ("artist", Json.str "Y")]] ≠
        ([] : List Json)) ∧
    jsonParse (stripFences
        "[\x7b\"artist\": \"Y\", \"title\": \"X\", \"justification\": \"J\"\x7d]") =
      some (.arr [Json.obj [("artist", .str "Y"), ("title", .str "X"),
        ("justification", .str "J")]]) ∧
    get_holistic_llm_recommendations
        (some (.content (some
          "[\x7b\"artist\": \"Y\", \"title\": \"X\", \"justification\": \"J\"\x7d]")))
        [Json.obj [("title", .str "X"), ("artist", .str "Y")]] =
      (some [Json.obj [("artist", .str "Y"), ("title", .str "X"),
        ("justification", .str "J")]], 1) :=
  ⟨by simp, rfl,
    c1_parsed_list_returned_verbatim
      [Json.obj [("title", .str "X"), ("artist", .str "Y")]]
      "[\x7b\"artist\": \"Y\", \"title\": \"X\", \"justification\": \"J\"\x7d]"
      [Json.obj [("artist", .str "Y"), ("title", .str "X"),
        ("justification", .str "J")]]
      (by simp) (by simp) rfl⟩

/-- Does a decoded reply have the accepted list shape (a list, or an
object containing a list-valued field)? -/
def shapeHasList : Json → Bool
  | .arr _ => true
  | .obj fields => (firstListValue fields).isSome
  | _ => false

/-- A decoded value without the accepted list shape reaches a
`return []` branch. -/
theorem dispatchParsed_eq_empty (j : Json) (h : shapeHasList j = false) :
    dispatchParsed j = some [] := by
  cases j with
  | arr xs => simp [shapeHasList] at h
  | obj fields =>
    cases ho : firstListValue fields with
    | none => simp [dispatchParsed, ho]
    | some xs => simp [shapeHasList, ho] at h
  | null => rfl
  | bool b => rfl
  | num n => rfl
  | str s => rfl

/-- C2, counterexample: the reply `"5"` decodes to a JSON value that is
neither a list nor an object with a list-valued field, yet the generator
returns the empty-list outcome `[]`, not the error outcome `None` the
claim requires. -/
theorem c2_counterexample :
    jsonParse (stripFences "5") = some (.num 5) ∧
    shapeHasList (.num 5) = false ∧
    get_holistic_llm_recommendations (some (.content (some "5")))
        [Json.obj [("title", .str "X"), ("artist", .str "Y")]] =
      (some [], 1) ∧
    (some ([] : List Json)) ≠ none :=
  ⟨rfl, rfl, rfl, Option.some_ne_none []⟩

/-- C2, amended: on a non-empty liked list, transport failure and
undecodable JSON yield the error outcome `None`, but a reply whose
fence-stripped text decodes to a value that is neither a list nor an
object with a list-valued field yields the empty-list outcome `[]` —
the same outcome as the LLM explicitly returning nothing, not the error
outcome. -/
theorem c2_terminal_outcomes (liked : List Json) (raw : String) (j : Json)
    (hliked : liked ≠ []) :
    (get_holistic_llm_recommendations (some .failure) liked = (none, 1)) ∧
    (raw ≠ "" → jsonParse (stripFences raw) = none →
      get_holistic_llm_recommendations (some (.content (some raw))) liked =
        (none, 1)) ∧
    (raw ≠ "" → jsonParse (stripFences raw) = some j → shapeHasList j = false →
      get_holistic_llm_recommendations (some (.content (some raw))) liked =
        (some [], 1)) := by
  have hne : liked.isEmpty = false := by
    cases liked with
    | nil => exact absurd rfl hliked
    | cons a as => rfl
  refine ⟨?_, ?_, ?_⟩
  · simp only [get_holistic_llm_recommendations, hne]
    rfl
  · intro hraw hparse
    simp only [get_holistic_llm_recommendations, hne]
    rw [if_neg hraw, hparse]
    rfl
  · intro hraw hparse hshape
    simp only [get_holistic_llm_recommendations, hne]
    rw [if_neg hraw, hparse]
    show (dispatchParsed j, 1) = (some [], 1)
    rw [dispatchParsed_eq_empty j hshape]

/-- C2, witness for the amended theorem at the reply `"5"` and a
one-element liked list. -/
theorem c2_terminal_outcomes_witness :
    ([Json.null] ≠ ([] : List Json)) ∧
    jsonParse (stripFences "5") = some (.num 5) ∧
    shapeHasList (.num 5) = false ∧
    get_holistic_llm_recommendations (some (.content (some "5"))) [Json.null] =
      (some [], 1) ∧
    get_holistic_llm_recommendations (some .failure) [Json.null] = (none, 1) :=
  ⟨by simp, rfl, rfl,
    (c2_terminal_outcomes [Json.null] "5" (.num 5) (by simp)).2.2
      (by simp) rfl rfl,
    (c2_terminal_outcomes [Json.null] "5" (.num 5) (by simp)).1⟩
